import Mathlib

/-
  Verification development for the pose-perturbation generator
  (poseGenerator.cpp / poseGenerator.hpp).

  Modelling conventions:
  - C++ doubles/floats are modelled as rationals (ℚ).
  - The shared mt19937_64 generator together with the standard-library
    distribution objects is modelled as a `Gen` state carrying three raw
    streams: `unif` (unit-interval draws consumed by
    uniform_real_distribution), `gauss` (standard-normal draws consumed by
    normal_distribution, scaled by stdDev), and `raw` (integer draws
    consumed by std::shuffle).  Every draw advances the single shared
    position `pos`, exactly as every C++ draw mutates m_generator.
  - C++ exceptions are modelled with `Except Err`; the gaussian rejection
    loop and the reshuffle loop, which the source leaves unbounded, take a
    fuel argument and report `Err.outOfFuel` when the fuel is exhausted
    (i.e. the C++ loop would still be running).
  - std::map<string,float> is modelled as an association list together
    with `mapInsert`, which mirrors std::map::insert: it is a no-op when
    the key is already present.
-/

structure randParams where
  distribution : String
  max : ℚ
  stdDev : ℚ
deriving Repr, DecidableEq

structure perturbParams where
  shift : randParams
  rotation : randParams
  forward : randParams
  sensor_yaw : randParams
  sensor_pitch : randParams
  sensor_roll : randParams
  flip : Bool
deriving Repr, DecidableEq

structure Pose where
  shift : ℚ
  rotation : ℚ
  forward : ℚ
  sensor_yaw : List (String × ℚ)
  sensor_pitch : List (String × ℚ)
  sensor_roll : List (String × ℚ)
  flip : Bool
  srcFrame : Nat
deriving Repr, DecidableEq

/-- The state of the shared random generator (m_generator plus the
distribution objects fed from it). -/
structure Gen where
  unif : Nat → ℚ
  gauss : Nat → ℚ
  raw : Nat → Nat
  pos : Nat

def Gen.advance (g : Gen) : Gen :=
  { g with pos := g.pos + 1 }

/-- A generator state is well-formed when the unit-uniform stream feeding
uniform_real_distribution really stays inside the unit interval. -/
def UnifValid (g : Gen) : Prop :=
  ∀ n, 0 ≤ g.unif n ∧ g.unif n ≤ 1

inductive Err where
  | invalidRule : String → Err
  | unknownDistribution : String → Err
  | noMatchingRule : Nat → Err
  | frameCountMismatch : Nat → Nat → Err
  | internalInconsistency : Err
  | outOfFuel : Err
deriving Repr, DecidableEq

/-- PoseGenerator::genGaussianRV rejection loop: draw from the normal
distribution (mean 0, scale stdDev) and redraw while the value lies
outside [-max, max].  Fuel bounds the number of draws attempted. -/
def genGaussianRVAux (params : randParams) : Nat → Gen → Option (ℚ × Gen)
  | 0, _ => none
  | fuel + 1, g =>
    let numGauss := params.stdDev * g.gauss g.pos
    if numGauss < -params.max ∨ numGauss > params.max then
      genGaussianRVAux params fuel g.advance
    else
      some (numGauss, g.advance)

def genGaussianRV (params : randParams) (g : Gen) (fuel : Nat) : Option (ℚ × Gen) :=
  genGaussianRVAux params fuel g

/-- PoseGenerator::genUniformRV: one draw from
uniform_real_distribution(-max, max). -/
def genUniformRV (params : randParams) (g : Gen) : ℚ × Gen :=
  (-params.max + g.unif g.pos * (2 * params.max), g.advance)

/-- PoseGenerator::getRandom: dispatch on the distribution name. -/
def getRandom (rParams : randParams) (g : Gen) (fuel : Nat) : Except Err (ℚ × Gen) :=
  if rParams.distribution = "gaussian" ∨ rParams.distribution = "normal" then
    match genGaussianRV rParams g fuel with
    | some res => .ok res
    | none => .error .outOfFuel
  else if rParams.distribution = "uniform" then
    .ok (genUniformRV rParams g)
  else
    .error (.unknownDistribution rParams.distribution)

/-- Models std::map::insert semantics: inserting an already-present key
leaves the map unchanged. -/
def mapInsert (k : String) (v : ℚ) (m : List (String × ℚ)) : List (String × ℚ) :=
  if m.any (fun kv => kv.1 == k) then m else m ++ [(k, v)]

/-- The per-sensor loop of PoseGenerator::generateOnePose: for each sensor
name draw yaw, pitch and roll and insert them into the three maps. -/
def sensorLoop (params : perturbParams) (fuel : Nat) :
    List String → List (String × ℚ) → List (String × ℚ) → List (String × ℚ) → Gen →
    Except Err (List (String × ℚ) × List (String × ℚ) × List (String × ℚ) × Gen)
  | [], yaws, pitches, rolls, g => .ok (yaws, pitches, rolls, g)
  | sensorName :: rest, yaws, pitches, rolls, g =>
    match getRandom params.sensor_yaw g fuel with
    | .error e => .error e
    | .ok (amountYaw, g1) =>
      match getRandom params.sensor_pitch g1 fuel with
      | .error e => .error e
      | .ok (amountPitch, g2) =>
        match getRandom params.sensor_roll g2 fuel with
        | .error e => .error e
        | .ok (amountRoll, g3) =>
          sensorLoop params fuel rest
            (mapInsert sensorName amountYaw yaws)
            (mapInsert sensorName amountPitch pitches)
            (mapInsert sensorName amountRoll rolls) g3

/-- PoseGenerator::generateOnePose. -/
def generateOnePose (sensorNames : List String) (params : perturbParams)
    (g : Gen) (fuel : Nat) : Except Err (Pose × Gen) :=
  match getRandom params.shift g fuel with
  | .error e => .error e
  | .ok (shiftV, g1) =>
    match getRandom params.rotation g1 fuel with
    | .error e => .error e
    | .ok (rotationV, g2) =>
      match getRandom params.forward g2 fuel with
      | .error e => .error e
      | .ok (forwardV, g3) =>
        match sensorLoop params fuel sensorNames [] [] [] g3 with
        | .error e => .error e
        | .ok (yaws, pitches, rolls, g4) =>
          .ok (⟨shiftV, rotationV, forwardV, yaws, pitches, rolls, false, 0⟩, g4)

/-- PoseGenerator::flipPose. -/
def flipPose (pIn : Pose) : Pose :=
  { pIn with flip := true, shift := -pIn.shift, rotation := -pIn.rotation }

abbrev LabelMap := List (String × String)

abbrev Rule := LabelMap × perturbParams

/-- The projMetaTrace collaborator, reduced to the two member functions
the generator consumes. -/
structure Trace where
  numDatapoints : Nat
  doLabelsMatch : Nat → LabelMap → Bool

/-- The projMetaData label-string collaborators consumed by the
constructor. -/
structure Env where
  stringMapFromSplitString : String → LabelMap
  isFieldNumeric : String → Bool
  isLabelValid : String → String → Bool

/-- The validation loop of the PoseGenerator constructor over one rule's
parsed label conditions. -/
def validateConditions (env : Env) : LabelMap → Except Err Unit
  | [] => .ok ()
  | (field, value) :: rest =>
    if env.isFieldNumeric field then
      .error (.invalidRule field)
    else if env.isLabelValid field value then
      validateConditions env rest
    else
      .error (.invalidRule field)

/-- The PoseGenerator constructor: parse and validate every config rule,
storing (labelConditions, perturbParams) pairs in input order
(m_perturbRules). -/
def mkPerturbRules (env : Env) : List (String × perturbParams) → Except Err (List Rule)
  | [] => .ok []
  | rule :: rest =>
    let labelConditions := env.stringMapFromSplitString rule.1
    match validateConditions env labelConditions with
    | .error e => .error e
    | .ok _ =>
      match mkPerturbRules env rest with
      | .error e => .error e
      | .ok others => .ok ((labelConditions, rule.2) :: others)

/-- The pose loop of PoseGenerator::generatePoses4oneFrame: for i in
[0, useCount) synthesize a pose, stamp srcFrame, and flip every other pose
when the matched rule asks for it. -/
def poseLoop (sensorNames : List String) (params : perturbParams) (index fuel : Nat) :
    Nat → Nat → Gen → Except Err (List Pose × Gen)
  | _, 0, g => .ok ([], g)
  | i, n + 1, g =>
    match generateOnePose sensorNames params g fuel with
    | .error e => .error e
    | .ok (onePose0, g1) =>
      let onePose : Pose := { onePose0 with srcFrame := index }
      let pose := if params.flip = true ∧ i % 2 = 1 then flipPose onePose else onePose
      match poseLoop sensorNames params index fuel (i + 1) n g1 with
      | .error e => .error e
      | .ok (rest, g2) => .ok (pose :: rest, g2)

/-- PoseGenerator::generatePoses4oneFrame. -/
def generatePoses4oneFrame (sensorNames : List String) (perturbRules : List Rule)
    (useCount index : Nat) (trace : Trace) (g : Gen) (fuel : Nat) :
    Except Err (List Pose × Gen) :=
  if useCount = 0 then .ok ([], g)
  else
    match
      (match perturbRules.find? (fun rule => trace.doLabelsMatch index rule.1) with
       | some firstRule => poseLoop sensorNames firstRule.2 index fuel 0 useCount g
       | none => .ok ([], g)) with
    | .error e => .error e
    | .ok (vecPoses, g1) =>
      if vecPoses.length = 0 then .error (.noMatchingRule index)
      else .ok (vecPoses, g1)

/-- The per-frame loop of PoseGenerator::generatePoses4vecFrames. -/
def genFramesLoop (sensorNames : List String) (perturbRules : List Rule)
    (trace : Trace) (fuel : Nat) :
    List Nat → Nat → Gen → Except Err (List (List Pose) × Gen)
  | [], _, g => .ok ([], g)
  | c :: rest, i, g =>
    match generatePoses4oneFrame sensorNames perturbRules c i trace g fuel with
    | .error e => .error e
    | .ok (poses, g1) =>
      match genFramesLoop sensorNames perturbRules trace fuel rest (i + 1) g1 with
      | .error e => .error e
      | .ok (others, g2) => .ok (poses :: others, g2)

/-- PoseGenerator::generatePoses4vecFrames (with the trace already
loaded). -/
def generatePoses4vecFrames (sensorNames : List String) (perturbRules : List Rule)
    (vecUseCounts : List Nat) (trace : Trace) (g : Gen) (fuel : Nat) :
    Except Err (List (List Pose) × Gen) :=
  let numFrames := vecUseCounts.length
  if trace.numDatapoints ≠ numFrames then
    .error (.frameCountMismatch trace.numDatapoints numFrames)
  else
    match genFramesLoop sensorNames perturbRules trace fuel vecUseCounts 0 g with
    | .error e => .error e
    | .ok (vecVecPoses, g1) =>
      if vecVecPoses.length ≠ numFrames then .error .internalInconsistency
      else .ok (vecVecPoses, g1)

/-- One swap of the Fisher-Yates shuffle. -/
def listSwap (l : List Pose) (i j : Nat) : List Pose :=
  match l.get? i, l.get? j with
  | some a, some b => (l.set i b).set j a
  | _, _ => l

/-- std::shuffle modelled as Fisher-Yates over the `raw` stream. -/
def shuffleAux : Nat → List Pose → Gen → List Pose × Gen
  | 0, l, g => (l, g)
  | i + 1, l, g =>
    let j := g.raw g.pos % (i + 2)
    shuffleAux i (listSwap l (i + 1) j) g.advance

def shuffle (l : List Pose) (g : Gen) : List Pose × Gen :=
  shuffleAux (l.length - 1) l g

def firstFlipped : List Pose → Bool
  | [] => false
  | p :: _ => p.flip

/-- The while-loop of PoseGenerator::generateShuffledPoses: reshuffle
while the first pose is flagged flipped. -/
def reshuffleLoop : Nat → List Pose → Gen → Option (List Pose × Gen)
  | 0, _, _ => none
  | fuel + 1, l, g =>
    if firstFlipped l then
      let res := shuffle l g
      reshuffleLoop fuel res.1 res.2
    else
      some (l, g)

/-- PoseGenerator::generateShuffledPoses. -/
def generateShuffledPoses (sensorNames : List String) (perturbRules : List Rule)
    (vecUseCounts : List Nat) (trace : Trace) (g : Gen) (fuel : Nat) :
    Except Err (List Pose × Gen) :=
  match generatePoses4vecFrames sensorNames perturbRules vecUseCounts trace g fuel with
  | .error e => .error e
  | .ok (unshuffledPoses, g1) =>
    let flattenedPoses := unshuffledPoses.flatten
    if flattenedPoses.length = 0 then .ok ([], g1)
    else
      let shuffled := shuffle flattenedPoses g1
      match reshuffleLoop fuel shuffled.1 shuffled.2 with
      | some res => .ok res
      | none => .error .outOfFuel

/-- A PoseGenerator instance: the stored rule table, the sensor names and
the owned generator state. -/
structure PoseGenState where
  m_perturbRules : List Rule
  m_sensorNames : List String
  m_generator : Gen

/-- One public API call together with its arguments. -/
inductive ApiCall where
  | vecFrames (vecUseCounts : List Nat) (trace : Trace) (fuel : Nat)
  | shuffled (vecUseCounts : List Nat) (trace : Trace) (fuel : Nat)

inductive ApiResult where
  | frames (r : Except Err (List (List Pose)))
  | flat (r : Except Err (List Pose))

/-- Run one public call against an instance, threading the generator
state exactly as the member functions mutate m_generator. -/
def runCall (s : PoseGenState) : ApiCall → ApiResult × PoseGenState
  | .vecFrames u t fuel =>
    match generatePoses4vecFrames s.m_sensorNames s.m_perturbRules u t s.m_generator fuel with
    | .ok (vv, g1) => (.frames (.ok vv), { s with m_generator := g1 })
    | .error e => (.frames (.error e), s)
  | .shuffled u t fuel =>
    match generateShuffledPoses s.m_sensorNames s.m_perturbRules u t s.m_generator fuel with
    | .ok (l, g1) => (.flat (.ok l), { s with m_generator := g1 })
    | .error e => (.flat (.error e), s)

def runCalls : PoseGenState → List ApiCall → List ApiResult × PoseGenState
  | s, [] => ([], s)
  | s, c :: rest =>
    let r := runCall s c
    let rs := runCalls r.2 rest
    (r.1 :: rs.1, rs.2)

theorem genGaussianRVAux_streams (params : randParams) :
    ∀ (fuel : Nat) (g : Gen) (v : ℚ) (g2 : Gen),
      genGaussianRVAux params fuel g = some (v, g2) →
      g2.unif = g.unif ∧ g2.gauss = g.gauss ∧ g2.raw = g.raw := by
  intro fuel
  induction fuel with
  | zero => intro g v g2 h; simp [genGaussianRVAux] at h
  | succ n ih =>
    intro g v g2 h
    simp only [genGaussianRVAux] at h
    split at h
    · exact ih g.advance v g2 h
    · simp only [Option.some.injEq, Prod.mk.injEq] at h
      obtain ⟨hv, hg⟩ := h
      subst hg
      exact ⟨rfl, rfl, rfl⟩

theorem genGaussianRVAux_bounds (params : randParams) :
    ∀ (fuel : Nat) (g : Gen) (v : ℚ) (g2 : Gen),
      genGaussianRVAux params fuel g = some (v, g2) →
      -params.max ≤ v ∧ v ≤ params.max := by
  intro fuel
  induction fuel with
  | zero => intro g v g2 h; simp [genGaussianRVAux] at h
  | succ n ih =>
    intro g v g2 h
    simp only [genGaussianRVAux] at h
    split at h
    · exact ih g.advance v g2 h
    · rename_i hcond
      push_neg at hcond
      simp only [Option.some.injEq, Prod.mk.injEq] at h
      obtain ⟨hv, hg⟩ := h
      subst hv
      exact ⟨hcond.1, hcond.2⟩

theorem getRandom_streams (r : randParams) (g : Gen) (fuel : Nat) (v : ℚ) (g2 : Gen)
    (h : getRandom r g fuel = .ok (v, g2)) :
    g2.unif = g.unif ∧ g2.gauss = g.gauss ∧ g2.raw = g.raw := by
  unfold getRandom at h
  split at h
  · cases h1 : genGaussianRV r g fuel with
    | none => simp [h1] at h
    | some res =>
      obtain ⟨rv, rg⟩ := res
      simp only [h1, Except.ok.injEq, Prod.mk.injEq] at h
      obtain ⟨hv, hg⟩ := h
      subst hg
      exact genGaussianRVAux_streams r fuel g rv _ h1
  · split at h
    · simp only [genUniformRV, Except.ok.injEq, Prod.mk.injEq] at h
      obtain ⟨hv, hg⟩ := h
      subst hg
      exact ⟨rfl, rfl, rfl⟩
    · simp at h

theorem getRandom_bounds (r : randParams) (g : Gen) (fuel : Nat) (v : ℚ) (g2 : Gen)
    (hmax : 0 ≤ r.max) (hval : UnifValid g)
    (h : getRandom r g fuel = .ok (v, g2)) : -r.max ≤ v ∧ v ≤ r.max := by
  unfold getRandom at h
  split at h
  · cases h1 : genGaussianRV r g fuel with
    | none => simp [h1] at h
    | some res =>
      obtain ⟨rv, rg⟩ := res
      simp only [h1, Except.ok.injEq, Prod.mk.injEq] at h
      obtain ⟨hv, hg2⟩ := h
      subst hv
      exact genGaussianRVAux_bounds r fuel g _ rg h1
  · split at h
    · simp only [genUniformRV, Except.ok.injEq, Prod.mk.injEq] at h
      obtain ⟨hv, hg2⟩ := h
      obtain ⟨hu0, hu1⟩ := hval g.pos
      subst hv
      constructor
      · nlinarith
      · nlinarith
    · simp at h

theorem UnifValid_of_unif_eq {g g2 : Gen} (he : g2.unif = g.unif) (hv : UnifValid g) :
    UnifValid g2 := by
  intro n
  rw [he]
  exact hv n

theorem mem_mapInsert {kv : String × ℚ} {k : String} {v : ℚ} {m : List (String × ℚ)}
    (h : kv ∈ mapInsert k v m) : kv ∈ m ∨ kv = (k, v) := by
  unfold mapInsert at h
  split at h
  · exact Or.inl h
  · rcases List.mem_append.mp h with h1 | h1
    · exact Or.inl h1
    · simp at h1
      exact Or.inr (by cases kv; simp_all)

theorem lookup_append {k : String} {v : ℚ} :
    ∀ (m m2 : List (String × ℚ)), List.lookup k m = some v →
      List.lookup k (m ++ m2) = some v := by
  intro m m2 h
  induction m with
  | nil => simp [List.lookup] at h
  | cons kv rest ih =>
    simp only [List.lookup, List.cons_append] at h ⊢
    split at h
    · simp_all [List.lookup]
    · simp_all [List.lookup]

theorem lookup_mapInsert {k : String} {v : ℚ} {k2 : String} {v2 : ℚ}
    {m : List (String × ℚ)} (h : List.lookup k m = some v) :
    List.lookup k (mapInsert k2 v2 m) = some v := by
  unfold mapInsert
  split
  · exact h
  · exact lookup_append m [(k2, v2)] h

theorem sensorLoop_streams (params : perturbParams) (fuel : Nat) :
    ∀ (names : List String) (yaws pitches rolls : List (String × ℚ)) (g : Gen)
      (y2 p2 r2 : List (String × ℚ)) (g2 : Gen),
      sensorLoop params fuel names yaws pitches rolls g = .ok (y2, p2, r2, g2) →
      g2.unif = g.unif ∧ g2.gauss = g.gauss ∧ g2.raw = g.raw := by
  intro names
  induction names with
  | nil =>
    intro yaws pitches rolls g y2 p2 r2 g2 h
    simp only [sensorLoop, Except.ok.injEq, Prod.mk.injEq] at h
    obtain ⟨-, -, -, hg⟩ := h
    subst hg
    exact ⟨rfl, rfl, rfl⟩
  | cons name rest ih =>
    intro yaws pitches rolls g y2 p2 r2 g2 h
    simp only [sensorLoop] at h
    cases h1 : getRandom params.sensor_yaw g fuel with
    | error e => simp [h1] at h
    | ok res1 =>
      obtain ⟨v1, g1⟩ := res1
      simp only [h1] at h
      cases h2 : getRandom params.sensor_pitch g1 fuel with
      | error e => simp [h2] at h
      | ok res2 =>
        obtain ⟨v2x, g2x⟩ := res2
        simp only [h2] at h
        cases h3 : getRandom params.sensor_roll g2x fuel with
        | error e => simp [h3] at h
        | ok res3 =>
          obtain ⟨v3, g3⟩ := res3
          simp only [h3] at h
          have e1 := getRandom_streams _ _ _ _ _ h1
          have e2 := getRandom_streams _ _ _ _ _ h2
          have e3 := getRandom_streams _ _ _ _ _ h3
          have e4 := ih _ _ _ _ _ _ _ _ h
          exact ⟨by rw [e4.1, e3.1, e2.1, e1.1], by rw [e4.2.1, e3.2.1, e2.2.1, e1.2.1],
                 by rw [e4.2.2, e3.2.2, e2.2.2, e1.2.2]⟩

theorem generateOnePose_streams (sensorNames : List String) (params : perturbParams)
    (g : Gen) (fuel : Nat) (p : Pose) (g2 : Gen)
    (h : generateOnePose sensorNames params g fuel = .ok (p, g2)) :
    g2.unif = g.unif ∧ g2.gauss = g.gauss ∧ g2.raw = g.raw := by
  unfold generateOnePose at h
  cases h1 : getRandom params.shift g fuel with
  | error e => simp [h1] at h
  | ok res1 =>
    obtain ⟨v1, g1⟩ := res1
    simp only [h1] at h
    cases h2 : getRandom params.rotation g1 fuel with
    | error e => simp [h2] at h
    | ok res2 =>
      obtain ⟨v2, g2x⟩ := res2
      simp only [h2] at h
      cases h3 : getRandom params.forward g2x fuel with
      | error e => simp [h3] at h
      | ok res3 =>
        obtain ⟨v3, g3⟩ := res3
        simp only [h3] at h
        cases h4 : sensorLoop params fuel sensorNames [] [] [] g3 with
        | error e => simp [h4] at h
        | ok res4 =>
          obtain ⟨yaws, pitches, rolls, g4⟩ := res4
          simp only [h4, Except.ok.injEq, Prod.mk.injEq] at h
          obtain ⟨-, hg⟩ := h
          subst hg
          have e1 := getRandom_streams _ _ _ _ _ h1
          have e2 := getRandom_streams _ _ _ _ _ h2
          have e3 := getRandom_streams _ _ _ _ _ h3
          have e4 := sensorLoop_streams _ _ _ _ _ _ _ _ _ _ _ h4
          exact ⟨by rw [e4.1, e3.1, e2.1, e1.1], by rw [e4.2.1, e3.2.1, e2.2.1, e1.2.1],
                 by rw [e4.2.2, e3.2.2, e2.2.2, e1.2.2]⟩

theorem generateOnePose_inv (sensorNames : List String) (params : perturbParams)
    (g : Gen) (fuel : Nat) (p : Pose) (g2 : Gen)
    (h : generateOnePose sensorNames params g fuel = .ok (p, g2)) :
    ∃ g1 g2x g3,
      getRandom params.shift g fuel = .ok (p.shift, g1) ∧
      getRandom params.rotation g1 fuel = .ok (p.rotation, g2x) ∧
      getRandom params.forward g2x fuel = .ok (p.forward, g3) ∧
      sensorLoop params fuel sensorNames [] [] [] g3 =
        .ok (p.sensor_yaw, p.sensor_pitch, p.sensor_roll, g2) ∧
      p.flip = false ∧ p.srcFrame = 0 := by
  unfold generateOnePose at h
  cases h1 : getRandom params.shift g fuel with
  | error e => simp [h1] at h
  | ok res1 =>
    obtain ⟨v1, g1⟩ := res1
    simp only [h1] at h
    cases h2 : getRandom params.rotation g1 fuel with
    | error e => simp [h2] at h
    | ok res2 =>
      obtain ⟨v2, g2x⟩ := res2
      simp only [h2] at h
      cases h3 : getRandom params.forward g2x fuel with
      | error e => simp [h3] at h
      | ok res3 =>
        obtain ⟨v3, g3⟩ := res3
        simp only [h3] at h
        cases h4 : sensorLoop params fuel sensorNames [] [] [] g3 with
        | error e => simp [h4] at h
        | ok res4 =>
          obtain ⟨yaws, pitches, rolls, g4⟩ := res4
          simp only [h4, Except.ok.injEq, Prod.mk.injEq] at h
          obtain ⟨hp, hg⟩ := h
          subst hg
          subst hp
          refine ⟨g1, g2x, g3, ?_, ?_, ?_, ?_, rfl, rfl⟩
          · simp
          · simpa using h2
          · simpa using h3
          · simpa using h4

theorem generateOnePose_flip (sensorNames : List String) (params : perturbParams)
    (g : Gen) (fuel : Nat) (p : Pose) (g2 : Gen)
    (h : generateOnePose sensorNames params g fuel = .ok (p, g2)) :
    p.flip = false ∧ p.srcFrame = 0 := by
  obtain ⟨g1, g2x, g3, -, -, -, -, hf, hs⟩ := generateOnePose_inv _ _ _ _ _ _ h
  exact ⟨hf, hs⟩

theorem sensorLoop_bounds (params : perturbParams) (fuel : Nat)
    (hy : 0 ≤ params.sensor_yaw.max) (hp : 0 ≤ params.sensor_pitch.max)
    (hr : 0 ≤ params.sensor_roll.max) :
    ∀ (names : List String) (yaws pitches rolls : List (String × ℚ)) (g : Gen)
      (y2 p2 r2 : List (String × ℚ)) (g2 : Gen),
      UnifValid g →
      (∀ kv ∈ yaws, |kv.2| ≤ params.sensor_yaw.max) →
      (∀ kv ∈ pitches, |kv.2| ≤ params.sensor_pitch.max) →
      (∀ kv ∈ rolls, |kv.2| ≤ params.sensor_roll.max) →
      sensorLoop params fuel names yaws pitches rolls g = .ok (y2, p2, r2, g2) →
      (∀ kv ∈ y2, |kv.2| ≤ params.sensor_yaw.max) ∧
      (∀ kv ∈ p2, |kv.2| ≤ params.sensor_pitch.max) ∧
      (∀ kv ∈ r2, |kv.2| ≤ params.sensor_roll.max) := by
  intro names
  induction names with
  | nil =>
    intro yaws pitches rolls g y2 p2 r2 g2 hval hy0 hp0 hr0 h
    simp only [sensorLoop, Except.ok.injEq, Prod.mk.injEq] at h
    obtain ⟨e1, e2, e3, -⟩ := h
    subst e1; subst e2; subst e3
    exact ⟨hy0, hp0, hr0⟩
  | cons name rest ih =>
    intro yaws pitches rolls g y2 p2 r2 g2 hval hy0 hp0 hr0 h
    simp only [sensorLoop] at h
    cases h1 : getRandom params.sensor_yaw g fuel with
    | error e => simp [h1] at h
    | ok res1 =>
      obtain ⟨v1, g1⟩ := res1
      simp only [h1] at h
      cases h2 : getRandom params.sensor_pitch g1 fuel with
      | error e => simp [h2] at h
      | ok res2 =>
        obtain ⟨v2, g2x⟩ := res2
        simp only [h2] at h
        cases h3 : getRandom params.sensor_roll g2x fuel with
        | error e => simp [h3] at h
        | ok res3 =>
          obtain ⟨v3, g3⟩ := res3
          simp only [h3] at h
          have hval1 : UnifValid g1 :=
            UnifValid_of_unif_eq (getRandom_streams _ _ _ _ _ h1).1 hval
          have hval2 : UnifValid g2x :=
            UnifValid_of_unif_eq (getRandom_streams _ _ _ _ _ h2).1 hval1
          have hval3 : UnifValid g3 :=
            UnifValid_of_unif_eq (getRandom_streams _ _ _ _ _ h3).1 hval2
          have hb1 := getRandom_bounds _ _ _ _ _ hy hval h1
          have hb2 := getRandom_bounds _ _ _ _ _ hp hval1 h2
          have hb3 := getRandom_bounds _ _ _ _ _ hr hval2 h3
          refine ih _ _ _ _ _ _ _ _ hval3 ?_ ?_ ?_ h
          · intro kv hkv
            rcases mem_mapInsert hkv with hm | hm
            · exact hy0 kv hm
            · subst hm; exact abs_le.mpr hb1
          · intro kv hkv
            rcases mem_mapInsert hkv with hm | hm
            · exact hp0 kv hm
            · subst hm; exact abs_le.mpr hb2
          · intro kv hkv
            rcases mem_mapInsert hkv with hm | hm
            · exact hr0 kv hm
            · subst hm; exact abs_le.mpr hb3

theorem generateOnePose_bounds (sensorNames : List String) (params : perturbParams)
    (g : Gen) (fuel : Nat) (p : Pose) (g2 : Gen)
    (hval : UnifValid g)
    (h1 : 0 ≤ params.shift.max) (h2 : 0 ≤ params.rotation.max)
    (h3 : 0 ≤ params.forward.max) (h4 : 0 ≤ params.sensor_yaw.max)
    (h5 : 0 ≤ params.sensor_pitch.max) (h6 : 0 ≤ params.sensor_roll.max)
    (h : generateOnePose sensorNames params g fuel = .ok (p, g2)) :
    |p.shift| ≤ params.shift.max ∧ |p.rotation| ≤ params.rotation.max ∧
    |p.forward| ≤ params.forward.max ∧
    (∀ kv ∈ p.sensor_yaw, |kv.2| ≤ params.sensor_yaw.max) ∧
    (∀ kv ∈ p.sensor_pitch, |kv.2| ≤ params.sensor_pitch.max) ∧
    (∀ kv ∈ p.sensor_roll, |kv.2| ≤ params.sensor_roll.max) := by
  obtain ⟨g1, g2x, g3, e1, e2, e3, e4, -, -⟩ := generateOnePose_inv _ _ _ _ _ _ h
  have hval1 : UnifValid g1 := UnifValid_of_unif_eq (getRandom_streams _ _ _ _ _ e1).1 hval
  have hval2 : UnifValid g2x := UnifValid_of_unif_eq (getRandom_streams _ _ _ _ _ e2).1 hval1
  have hval3 : UnifValid g3 := UnifValid_of_unif_eq (getRandom_streams _ _ _ _ _ e3).1 hval2
  have hsl := sensorLoop_bounds params fuel h4 h5 h6 sensorNames [] [] [] g3 _ _ _ _ hval3
    (by simp) (by simp) (by simp) e4
  exact ⟨abs_le.mpr (getRandom_bounds _ _ _ _ _ h1 hval e1),
         abs_le.mpr (getRandom_bounds _ _ _ _ _ h2 hval1 e2),
         abs_le.mpr (getRandom_bounds _ _ _ _ _ h3 hval2 e3),
         hsl.1, hsl.2.1, hsl.2.2⟩

theorem poseLoop_spec (sensorNames : List String) (params : perturbParams) (index fuel : Nat) :
    ∀ (n i : Nat) (g : Gen) (l : List Pose) (g2 : Gen),
      poseLoop sensorNames params index fuel i n g = .ok (l, g2) →
      l.length = n ∧
      ∀ j (hj : j < l.length), ∃ (p : Pose) (g3 g4 : Gen),
        g3.unif = g.unif ∧
        generateOnePose sensorNames params g3 fuel = .ok (p, g4) ∧
        l.get ⟨j, hj⟩ =
          (if params.flip = true ∧ (i + j) % 2 = 1 then flipPose { p with srcFrame := index }
           else { p with srcFrame := index }) := by
  intro n
  induction n with
  | zero =>
    intro i g l g2 h
    simp only [poseLoop, Except.ok.injEq, Prod.mk.injEq] at h
    obtain ⟨hl, -⟩ := h
    subst hl
    exact ⟨rfl, fun j hj => absurd hj (by simp)⟩
  | succ n ih =>
    intro i g l g2 h
    simp only [poseLoop] at h
    cases h1 : generateOnePose sensorNames params g fuel with
    | error e => simp [h1] at h
    | ok res1 =>
      obtain ⟨p0, g1⟩ := res1
      simp only [h1] at h
      cases h2 : poseLoop sensorNames params index fuel (i + 1) n g1 with
      | error e => simp [h2] at h
      | ok res2 =>
        obtain ⟨rest, g2x⟩ := res2
        simp only [h2, Except.ok.injEq, Prod.mk.injEq] at h
        obtain ⟨hl, hg⟩ := h
        subst hg
        subst hl
        obtain ⟨hlen, hspec⟩ := ih (i + 1) g1 rest g2x h2
        constructor
        · simp [hlen]
        · intro j hj
          cases j with
          | zero =>
            refine ⟨p0, g, g1, rfl, h1, ?_⟩
            simp
          | succ j =>
            have hj2 : j < rest.length := by simp at hj; omega
            obtain ⟨p, g3, g4, hu, hgen, heq⟩ := hspec j hj2
            have hu2 : g3.unif = g.unif := by
              rw [hu, (generateOnePose_streams _ _ _ _ _ _ h1).1]
            refine ⟨p, g3, g4, hu2, hgen, ?_⟩
            have harith : i + (j + 1) = (i + 1) + j := by omega
            rw [harith]
            simpa using heq

theorem getRandom_error (r : randParams) (g : Gen) (fuel : Nat) (e : Err)
    (h : getRandom r g fuel = .error e) :
    e = .outOfFuel ∨ ∃ s, e = .unknownDistribution s := by
  unfold getRandom at h
  split at h
  · cases h1 : genGaussianRV r g fuel with
    | none =>
      simp only [h1, Except.error.injEq] at h
      exact Or.inl h.symm
    | some res => simp [h1] at h
  · split at h
    · simp at h
    · simp only [Except.error.injEq] at h
      exact Or.inr ⟨_, h.symm⟩

theorem sensorLoop_error (params : perturbParams) (fuel : Nat) :
    ∀ (names : List String) (yaws pitches rolls : List (String × ℚ)) (g : Gen) (e : Err),
      sensorLoop params fuel names yaws pitches rolls g = .error e →
      e = .outOfFuel ∨ ∃ s, e = .unknownDistribution s := by
  intro names
  induction names with
  | nil => intro yaws pitches rolls g e h; simp [sensorLoop] at h
  | cons name rest ih =>
    intro yaws pitches rolls g e h
    simp only [sensorLoop] at h
    cases h1 : getRandom params.sensor_yaw g fuel with
    | error e1 =>
      simp only [h1, Except.error.injEq] at h
      subst h
      exact getRandom_error _ _ _ _ h1
    | ok res1 =>
      obtain ⟨v1, g1⟩ := res1
      simp only [h1] at h
      cases h2 : getRandom params.sensor_pitch g1 fuel with
      | error e2 =>
        simp only [h2, Except.error.injEq] at h
        subst h
        exact getRandom_error _ _ _ _ h2
      | ok res2 =>
        obtain ⟨v2, g2⟩ := res2
        simp only [h2] at h
        cases h3 : getRandom params.sensor_roll g2 fuel with
        | error e3 =>
          simp only [h3, Except.error.injEq] at h
          subst h
          exact getRandom_error _ _ _ _ h3
        | ok res3 =>
          obtain ⟨v3, g3⟩ := res3
          simp only [h3] at h
          exact ih _ _ _ _ _ h

theorem generateOnePose_error (sensorNames : List String) (params : perturbParams)
    (g : Gen) (fuel : Nat) (e : Err)
    (h : generateOnePose sensorNames params g fuel = .error e) :
    e = .outOfFuel ∨ ∃ s, e = .unknownDistribution s := by
  unfold generateOnePose at h
  cases h1 : getRandom params.shift g fuel with
  | error e1 =>
    simp only [h1, Except.error.injEq] at h
    subst h
    exact getRandom_error _ _ _ _ h1
  | ok res1 =>
    obtain ⟨v1, g1⟩ := res1
    simp only [h1] at h
    cases h2 : getRandom params.rotation g1 fuel with
    | error e2 =>
      simp only [h2, Except.error.injEq] at h
      subst h
      exact getRandom_error _ _ _ _ h2
    | ok res2 =>
      obtain ⟨v2, g2x⟩ := res2
      simp only [h2] at h
      cases h3 : getRandom params.forward g2x fuel with
      | error e3 =>
        simp only [h3, Except.error.injEq] at h
        subst h
        exact getRandom_error _ _ _ _ h3
      | ok res3 =>
        obtain ⟨v3, g3⟩ := res3
        simp only [h3] at h
        cases h4 : sensorLoop params fuel sensorNames [] [] [] g3 with
        | error e4 =>
          simp only [h4, Except.error.injEq] at h
          subst h
          exact sensorLoop_error _ _ _ _ _ _ _ _ h4
        | ok res4 =>
          obtain ⟨yaws, pitches, rolls, g4⟩ := res4
          simp [h4] at h

theorem poseLoop_error (sensorNames : List String) (params : perturbParams)
    (index fuel : Nat) :
    ∀ (n i : Nat) (g : Gen) (e : Err),
      poseLoop sensorNames params index fuel i n g = .error e →
      e = .outOfFuel ∨ ∃ s, e = .unknownDistribution s := by
  intro n
  induction n with
  | zero => intro i g e h; simp [poseLoop] at h
  | succ n ih =>
    intro i g e h
    simp only [poseLoop] at h
    cases h1 : generateOnePose sensorNames params g fuel with
    | error e1 =>
      simp only [h1, Except.error.injEq] at h
      subst h
      exact generateOnePose_error _ _ _ _ _ h1
    | ok res1 =>
      obtain ⟨p0, g1⟩ := res1
      simp only [h1] at h
      cases h2 : poseLoop sensorNames params index fuel (i + 1) n g1 with
      | error e2 =>
        simp only [h2, Except.error.injEq] at h
        subst h
        exact ih _ _ _ h2
      | ok res2 =>
        obtain ⟨rest, g2x⟩ := res2
        simp [h2] at h

theorem gen4one_zero (sensorNames : List String) (perturbRules : List Rule)
    (index : Nat) (trace : Trace) (g : Gen) (fuel : Nat) :
    generatePoses4oneFrame sensorNames perturbRules 0 index trace g fuel = .ok ([], g) := by
  simp [generatePoses4oneFrame]

theorem gen4one_inv (sensorNames : List String) (perturbRules : List Rule)
    (useCount index : Nat) (trace : Trace) (g : Gen) (fuel : Nat)
    (l : List Pose) (g2 : Gen) (hc : useCount ≠ 0)
    (h : generatePoses4oneFrame sensorNames perturbRules useCount index trace g fuel =
      .ok (l, g2)) :
    ∃ firstRule,
      perturbRules.find? (fun rule => trace.doLabelsMatch index rule.1) = some firstRule ∧
      poseLoop sensorNames firstRule.2 index fuel 0 useCount g = .ok (l, g2) := by
  unfold generatePoses4oneFrame at h
  rw [if_neg hc] at h
  cases hf : perturbRules.find? (fun rule => trace.doLabelsMatch index rule.1) with
  | none => simp [hf] at h
  | some firstRule =>
    simp only [hf] at h
    cases hp : poseLoop sensorNames firstRule.2 index fuel 0 useCount g with
    | error e => simp [hp] at h
    | ok res =>
      obtain ⟨l1, g1⟩ := res
      simp only [hp] at h
      split at h
      · simp at h
      · simp only [Except.ok.injEq, Prod.mk.injEq] at h
        obtain ⟨hl, hg⟩ := h
        subst hl
        subst hg
        exact ⟨firstRule, rfl, hp⟩

theorem gen4one_length (sensorNames : List String) (perturbRules : List Rule)
    (useCount index : Nat) (trace : Trace) (g : Gen) (fuel : Nat)
    (l : List Pose) (g2 : Gen)
    (h : generatePoses4oneFrame sensorNames perturbRules useCount index trace g fuel =
      .ok (l, g2)) :
    l.length = useCount := by
  by_cases hc : useCount = 0
  · subst hc
    rw [gen4one_zero] at h
    simp only [Except.ok.injEq, Prod.mk.injEq] at h
    obtain ⟨hl, -⟩ := h
    simp [← hl]
  · obtain ⟨firstRule, -, hp⟩ := gen4one_inv _ _ _ _ _ _ _ _ _ hc h
    exact (poseLoop_spec _ _ _ _ _ _ _ _ _ hp).1

theorem gen4one_error (sensorNames : List String) (perturbRules : List Rule)
    (useCount index : Nat) (trace : Trace) (g : Gen) (fuel : Nat) (e : Err)
    (h : generatePoses4oneFrame sensorNames perturbRules useCount index trace g fuel =
      .error e) :
    (∃ j, e = .noMatchingRule j) ∨ e = .outOfFuel ∨ ∃ s, e = .unknownDistribution s := by
  unfold generatePoses4oneFrame at h
  split at h
  · simp at h
  · cases hf : perturbRules.find? (fun rule => trace.doLabelsMatch index rule.1) with
    | none =>
      simp only [hf] at h
      split at h
      · simp only [Except.error.injEq] at h
        exact Or.inl ⟨index, h.symm⟩
      · simp at h
    | some firstRule =>
      simp only [hf] at h
      cases hp : poseLoop sensorNames firstRule.2 index fuel 0 useCount g with
      | error e1 =>
        simp only [hp, Except.error.injEq] at h
        subst h
        exact Or.inr (poseLoop_error _ _ _ _ _ _ _ _ hp)
      | ok res =>
        obtain ⟨l1, g1⟩ := res
        simp only [hp] at h
        split at h
        · simp only [Except.error.injEq] at h
          exact Or.inl ⟨index, h.symm⟩
        · simp at h

theorem gen4one_head (sensorNames : List String) (perturbRules : List Rule)
    (useCount index : Nat) (trace : Trace) (g : Gen) (fuel : Nat)
    (l : List Pose) (g2 : Gen)
    (h : generatePoses4oneFrame sensorNames perturbRules useCount index trace g fuel =
      .ok (l, g2)) :
    l = [] ∨ ∃ hne : l ≠ [], (l.head hne).flip = false := by
  by_cases hc : useCount = 0
  · subst hc
    rw [gen4one_zero] at h
    simp only [Except.ok.injEq, Prod.mk.injEq] at h
    obtain ⟨hl, -⟩ := h
    exact Or.inl hl.symm
  · obtain ⟨firstRule, -, hp⟩ := gen4one_inv _ _ _ _ _ _ _ _ _ hc h
    cases l with
    | nil => exact Or.inl rfl
    | cons x xs =>
      right
      refine ⟨by simp, ?_⟩
      obtain ⟨p, g3, g4, -, hgen, heq⟩ :=
        (poseLoop_spec _ _ _ _ _ _ _ _ _ hp).2 0 (by simp)
      have hx : x = { p with srcFrame := index } := by simpa using heq
      rw [List.head_cons, hx]
      exact (generateOnePose_flip _ _ _ _ _ _ hgen).1

theorem genFramesLoop_lengths (sensorNames : List String) (perturbRules : List Rule)
    (trace : Trace) (fuel : Nat) :
    ∀ (useCounts : List Nat) (i : Nat) (g : Gen) (vv : List (List Pose)) (g2 : Gen),
      genFramesLoop sensorNames perturbRules trace fuel useCounts i g = .ok (vv, g2) →
      vv.length = useCounts.length ∧
      ∀ j (hj : j < vv.length) (hj2 : j < useCounts.length),
        (vv.get ⟨j, hj⟩).length = useCounts.get ⟨j, hj2⟩ := by
  intro useCounts
  induction useCounts with
  | nil =>
    intro i g vv g2 h
    simp only [genFramesLoop, Except.ok.injEq, Prod.mk.injEq] at h
    obtain ⟨hl, -⟩ := h
    subst hl
    exact ⟨rfl, fun j hj => absurd hj (by simp)⟩
  | cons c rest ih =>
    intro i g vv g2 h
    simp only [genFramesLoop] at h
    cases h1 : generatePoses4oneFrame sensorNames perturbRules c i trace g fuel with
    | error e => simp [h1] at h
    | ok res1 =>
      obtain ⟨poses, g1⟩ := res1
      simp only [h1] at h
      cases h2 : genFramesLoop sensorNames perturbRules trace fuel rest (i + 1) g1 with
      | error e => simp [h2] at h
      | ok res2 =>
        obtain ⟨others, g2x⟩ := res2
        simp only [h2, Except.ok.injEq, Prod.mk.injEq] at h
        obtain ⟨hl, hg⟩ := h
        subst hl
        subst hg
        obtain ⟨hlen, hspec⟩ := ih (i + 1) g1 others g2x h2
        constructor
        · simp [hlen]
        · intro j hj hj2
          cases j with
          | zero =>
            simpa using gen4one_length _ _ _ _ _ _ _ _ _ h1
          | succ j =>
            have hja : j < others.length := by simp at hj; omega
            have hjb : j < rest.length := by simp at hj2; omega
            simpa using hspec j hja hjb

theorem genFramesLoop_heads (sensorNames : List String) (perturbRules : List Rule)
    (trace : Trace) (fuel : Nat) :
    ∀ (useCounts : List Nat) (i : Nat) (g : Gen) (vv : List (List Pose)) (g2 : Gen),
      genFramesLoop sensorNames perturbRules trace fuel useCounts i g = .ok (vv, g2) →
      ∀ lv ∈ vv, lv = [] ∨ ∃ hne : lv ≠ [], (lv.head hne).flip = false := by
  intro useCounts
  induction useCounts with
  | nil =>
    intro i g vv g2 h
    simp only [genFramesLoop, Except.ok.injEq, Prod.mk.injEq] at h
    obtain ⟨hl, -⟩ := h
    subst hl
    intro lv hlv
    simp at hlv
  | cons c rest ih =>
    intro i g vv g2 h
    simp only [genFramesLoop] at h
    cases h1 : generatePoses4oneFrame sensorNames perturbRules c i trace g fuel with
    | error e => simp [h1] at h
    | ok res1 =>
      obtain ⟨poses, g1⟩ := res1
      simp only [h1] at h
      cases h2 : genFramesLoop sensorNames perturbRules trace fuel rest (i + 1) g1 with
      | error e => simp [h2] at h
      | ok res2 =>
        obtain ⟨others, g2x⟩ := res2
        simp only [h2, Except.ok.injEq, Prod.mk.injEq] at h
        obtain ⟨hl, hg⟩ := h
        subst hl
        subst hg
        intro lv hlv
        rcases List.mem_cons.mp hlv with hm | hm
        · subst hm
          exact gen4one_head _ _ _ _ _ _ _ _ _ h1
        · exact ih (i + 1) g1 others g2x h2 lv hm

theorem genFramesLoop_error (sensorNames : List String) (perturbRules : List Rule)
    (trace : Trace) (fuel : Nat) :
    ∀ (useCounts : List Nat) (i : Nat) (g : Gen) (e : Err),
      genFramesLoop sensorNames perturbRules trace fuel useCounts i g = .error e →
      (∃ j, e = .noMatchingRule j) ∨ e = .outOfFuel ∨ ∃ s, e = .unknownDistribution s := by
  intro useCounts
  induction useCounts with
  | nil => intro i g e h; simp [genFramesLoop] at h
  | cons c rest ih =>
    intro i g e h
    simp only [genFramesLoop] at h
    cases h1 : generatePoses4oneFrame sensorNames perturbRules c i trace g fuel with
    | error e1 =>
      simp only [h1, Except.error.injEq] at h
      subst h
      exact gen4one_error _ _ _ _ _ _ _ _ h1
    | ok res1 =>
      obtain ⟨poses, g1⟩ := res1
      simp only [h1] at h
      cases h2 : genFramesLoop sensorNames perturbRules trace fuel rest (i + 1) g1 with
      | error e2 =>
        simp only [h2, Except.error.injEq] at h
        subst h
        exact ih _ _ _ h2
      | ok res2 =>
        obtain ⟨others, g2x⟩ := res2
        simp [h2] at h

theorem find?_first {α : Type} (p : α → Bool) :
    ∀ (l : List α) (r : α), l.find? p = some r →
      ∃ k, l.get? k = some r ∧ p r = true ∧
        ∀ k2, k2 < k → ∀ r2, l.get? k2 = some r2 → p r2 = false := by
  intro l
  induction l with
  | nil => intro r h; simp at h
  | cons a rest ih =>
    intro r h
    by_cases hpa : p a = true
    · rw [List.find?_cons_of_pos _ hpa] at h
      simp only [Option.some.injEq] at h
      subst h
      exact ⟨0, by simp, hpa, fun k2 hk2 => absurd hk2 (by omega)⟩
    · have hpa2 : p a = false := by simpa using hpa
      rw [List.find?_cons_of_neg _ (by simp [hpa2])] at h
      obtain ⟨k, hk, hpr, hfirst⟩ := ih r h
      refine ⟨k + 1, by simpa using hk, hpr, ?_⟩
      intro k2 hk2 r2 hr2
      cases k2 with
      | zero =>
        simp only [List.get?_cons_zero, Option.some.injEq] at hr2
        subst hr2
        exact hpa2
      | succ k2 =>
        exact hfirst k2 (by omega) r2 (by simpa using hr2)

theorem mkPerturbRules_ok (env : Env) :
    ∀ (cfg : List (String × perturbParams)) (rules : List Rule),
      mkPerturbRules env cfg = .ok rules →
      rules = cfg.map (fun rule => (env.stringMapFromSplitString rule.1, rule.2)) := by
  intro cfg
  induction cfg with
  | nil =>
    intro rules h
    simp only [mkPerturbRules, Except.ok.injEq] at h
    subst h
    simp
  | cons rule rest ih =>
    intro rules h
    simp only [mkPerturbRules] at h
    cases h1 : validateConditions env (env.stringMapFromSplitString rule.1) with
    | error e => simp [h1] at h
    | ok u =>
      simp only [h1] at h
      cases h2 : mkPerturbRules env rest with
      | error e => simp [h2] at h
      | ok others =>
        simp only [h2, Except.ok.injEq] at h
        subst h
        simp [ih others h2]

theorem gen4vec_inv (sensorNames : List String) (perturbRules : List Rule)
    (vecUseCounts : List Nat) (trace : Trace) (g : Gen) (fuel : Nat)
    (vv : List (List Pose)) (g2 : Gen)
    (h : generatePoses4vecFrames sensorNames perturbRules vecUseCounts trace g fuel =
      .ok (vv, g2)) :
    trace.numDatapoints = vecUseCounts.length ∧
    genFramesLoop sensorNames perturbRules trace fuel vecUseCounts 0 g = .ok (vv, g2) := by
  unfold generatePoses4vecFrames at h
  cases h1 : genFramesLoop sensorNames perturbRules trace fuel vecUseCounts 0 g with
  | error e =>
    simp only [h1] at h
    split at h <;> simp at h
  | ok res =>
    obtain ⟨vv1, g1⟩ := res
    simp only [h1] at h
    split at h
    · simp at h
    · rename_i hnum
      split at h
      · simp at h
      · simp only [Except.ok.injEq, Prod.mk.injEq] at h
        obtain ⟨hl, hg⟩ := h
        subst hl
        subst hg
        exact ⟨by omega, rfl⟩

theorem reshuffleLoop_first :
    ∀ (fuel : Nat) (l : List Pose) (g : Gen) (l2 : List Pose) (g2 : Gen),
      reshuffleLoop fuel l g = some (l2, g2) → firstFlipped l2 = false := by
  intro fuel
  induction fuel with
  | zero => intro l g l2 g2 h; simp [reshuffleLoop] at h
  | succ n ih =>
    intro l g l2 g2 h
    simp only [reshuffleLoop] at h
    split at h
    · exact ih _ _ _ _ h
    · rename_i hff
      simp only [Option.some.injEq, Prod.mk.injEq] at h
      obtain ⟨hl, -⟩ := h
      subst hl
      simpa using hff

theorem sensorLoop_preserves (params : perturbParams) (fuel : Nat) :
    ∀ (names : List String) (yaws pitches rolls : List (String × ℚ)) (g : Gen)
      (y2 p2 r2 : List (String × ℚ)) (g2 : Gen) (k : String) (vy vp vr : ℚ),
      List.lookup k yaws = some vy →
      List.lookup k pitches = some vp →
      List.lookup k rolls = some vr →
      sensorLoop params fuel names yaws pitches rolls g = .ok (y2, p2, r2, g2) →
      List.lookup k y2 = some vy ∧ List.lookup k p2 = some vp ∧
      List.lookup k r2 = some vr := by
  intro names
  induction names with
  | nil =>
    intro yaws pitches rolls g y2 p2 r2 g2 k vy vp vr hy hp hr h
    simp only [sensorLoop, Except.ok.injEq, Prod.mk.injEq] at h
    obtain ⟨e1, e2, e3, -⟩ := h
    subst e1; subst e2; subst e3
    exact ⟨hy, hp, hr⟩
  | cons name rest ih =>
    intro yaws pitches rolls g y2 p2 r2 g2 k vy vp vr hy hp hr h
    simp only [sensorLoop] at h
    cases h1 : getRandom params.sensor_yaw g fuel with
    | error e => simp [h1] at h
    | ok res1 =>
      obtain ⟨v1, g1⟩ := res1
      simp only [h1] at h
      cases h2 : getRandom params.sensor_pitch g1 fuel with
      | error e => simp [h2] at h
      | ok res2 =>
        obtain ⟨v2, g2x⟩ := res2
        simp only [h2] at h
        cases h3 : getRandom params.sensor_roll g2x fuel with
        | error e => simp [h3] at h
        | ok res3 =>
          obtain ⟨v3, g3⟩ := res3
          simp only [h3] at h
          exact ih _ _ _ _ _ _ _ _ _ _ _ _
            (lookup_mapInsert hy) (lookup_mapInsert hp) (lookup_mapInsert hr) h

def gAt (n : Nat) : Gen := ⟨fun _ => 1/2, fun _ => 0, fun _ => 0, n⟩

def g0 : Gen := gAt 0

def uParams : randParams := ⟨"uniform", 1, 0⟩

def testParams : perturbParams := ⟨uParams, uParams, uParams, uParams, uParams, uParams, true⟩

def testParamsNF : perturbParams := ⟨uParams, uParams, uParams, uParams, uParams, uParams, false⟩

def ruleT : Rule := ([("road_type", "highway")], testParams)

def ruleNF : Rule := ([("road_type", "highway")], testParamsNF)

def testTrace : Trace := ⟨2, fun _ _ => true⟩

def pose0 : Pose := ⟨0, 0, 0, [("center", 0)], [("center", 0)], [("center", 0)], false, 0⟩

def pose1 : Pose := ⟨0, 0, 0, [("center", 0)], [("center", 0)], [("center", 0)], false, 1⟩

def g9 : Gen := ⟨fun n => (n : ℚ) / 10, fun _ => 0, fun _ => 0, 0⟩

def envT : Env := ⟨fun s => [("road_type", s)], fun _ => false, fun _ _ => true⟩

def cfgT : List (String × perturbParams) := [("highway", testParams)]

theorem g0_valid : UnifValid g0 := by
  intro n
  constructor <;> norm_num [g0, gAt]

theorem run_getRandom_u : getRandom uParams g0 1 = .ok (0, gAt 1) := by
  simp [getRandom, genUniformRV, uParams, g0, gAt, Gen.advance]

theorem run_mk_T : mkPerturbRules envT cfgT = .ok [ruleT] := by
  simp [mkPerturbRules, validateConditions, envT, cfgT, ruleT]

theorem run_gen4one_T1 :
    generatePoses4oneFrame ["center"] [ruleT] 1 0 testTrace g0 1 = .ok ([pose0], gAt 6) := by
  simp [generatePoses4oneFrame, poseLoop, generateOnePose, sensorLoop, mapInsert,
    getRandom, genUniformRV, testParams, uParams, g0, gAt, Gen.advance, pose0, ruleT,
    List.find?, testTrace, flipPose]

theorem run_gen4one_T2 :
    generatePoses4oneFrame ["center"] [ruleT] 2 0 testTrace g0 1 =
      .ok ([pose0, flipPose pose0], gAt 12) := by
  simp [generatePoses4oneFrame, poseLoop, generateOnePose, sensorLoop, mapInsert,
    getRandom, genUniformRV, testParams, uParams, g0, gAt, Gen.advance, pose0, ruleT,
    List.find?, testTrace, flipPose]

theorem run_gen4vec_T :
    generatePoses4vecFrames ["center"] [ruleT] [1, 2] testTrace g0 1 =
      .ok ([[pose0], [pose1, flipPose pose1]], gAt 18) := by
  simp [generatePoses4vecFrames, genFramesLoop, generatePoses4oneFrame, poseLoop,
    generateOnePose, sensorLoop, mapInsert, getRandom, genUniformRV, testParams, uParams,
    g0, gAt, Gen.advance, pose0, pose1, ruleT, List.find?, testTrace, flipPose]

theorem run_shuffled_NF :
    generateShuffledPoses ["center"] [ruleNF] [1, 1] testTrace g0 1 =
      .ok ([pose1, pose0], gAt 13) := by
  simp [generateShuffledPoses, generatePoses4vecFrames, genFramesLoop,
    generatePoses4oneFrame, poseLoop, generateOnePose, sensorLoop, mapInsert, getRandom,
    genUniformRV, testParamsNF, uParams, g0, gAt, Gen.advance, pose0, pose1, ruleNF,
    List.find?, testTrace, flipPose, shuffle, shuffleAux, listSwap, reshuffleLoop,
    firstFlipped]

/-- Claim C1: for every randParams with max ≥ 0, every value returned by the
sampler getRandom lies in [-max, max], for both the gaussian/normal case
(rejection sampling) and the uniform case; hence every numeric field of every
pose generated for a frame (shift, rotation, forward, and each per-sensor
yaw/pitch/roll entry) is bounded by the matched rule's configured max for
that field. -/
theorem claim_C1 :
    (∀ (r : randParams) (g : Gen) (fuel : Nat) (v : ℚ) (g2 : Gen),
      0 ≤ r.max → UnifValid g → getRandom r g fuel = .ok (v, g2) → |v| ≤ r.max) ∧
    (∀ (sensorNames : List String) (perturbRules : List Rule) (useCount index : Nat)
       (trace : Trace) (g : Gen) (fuel : Nat) (l : List Pose) (g2 : Gen)
       (firstRule : Rule),
      UnifValid g →
      perturbRules.find? (fun rule => trace.doLabelsMatch index rule.1) = some firstRule →
      0 ≤ firstRule.2.shift.max → 0 ≤ firstRule.2.rotation.max →
      0 ≤ firstRule.2.forward.max → 0 ≤ firstRule.2.sensor_yaw.max →
      0 ≤ firstRule.2.sensor_pitch.max → 0 ≤ firstRule.2.sensor_roll.max →
      generatePoses4oneFrame sensorNames perturbRules useCount index trace g fuel =
        .ok (l, g2) →
      ∀ pose ∈ l,
        |pose.shift| ≤ firstRule.2.shift.max ∧
        |pose.rotation| ≤ firstRule.2.rotation.max ∧
        |pose.forward| ≤ firstRule.2.forward.max ∧
        (∀ kv ∈ pose.sensor_yaw, |kv.2| ≤ firstRule.2.sensor_yaw.max) ∧
        (∀ kv ∈ pose.sensor_pitch, |kv.2| ≤ firstRule.2.sensor_pitch.max) ∧
        (∀ kv ∈ pose.sensor_roll, |kv.2| ≤ firstRule.2.sensor_roll.max)) := by
  constructor
  · intro r g fuel v g2 hmax hval h
    exact abs_le.mpr (getRandom_bounds _ _ _ _ _ hmax hval h)
  · intro sensorNames perturbRules useCount index trace g fuel l g2 firstRule hval hfind
      h1 h2 h3 h4 h5 h6 hrun pose hpose
    by_cases hc : useCount = 0
    · subst hc
      rw [gen4one_zero] at hrun
      simp only [Except.ok.injEq, Prod.mk.injEq] at hrun
      obtain ⟨hl, -⟩ := hrun
      rw [← hl] at hpose
      simp at hpose
    · obtain ⟨fr2, hf2, hp⟩ := gen4one_inv _ _ _ _ _ _ _ _ _ hc hrun
      rw [hfind, Option.some.injEq] at hf2
      subst hf2
      obtain ⟨n, hget⟩ := List.get_of_mem hpose
      obtain ⟨p, g3, g4, hu, hgen, heq⟩ :=
        (poseLoop_spec _ _ _ _ _ _ _ _ _ hp).2 n.1 n.2
      rw [hget] at heq
      have hb := generateOnePose_bounds _ _ _ _ _ _
        (UnifValid_of_unif_eq hu hval) h1 h2 h3 h4 h5 h6 hgen
      by_cases hcond : firstRule.2.flip = true ∧ (0 + n.1) % 2 = 1
      · rw [if_pos hcond] at heq
        subst heq
        refine ⟨?_, ?_, ?_, ?_, ?_, ?_⟩
        · simpa [flipPose, abs_neg] using hb.1
        · simpa [flipPose, abs_neg] using hb.2.1
        · simpa [flipPose] using hb.2.2.1
        · simpa [flipPose] using hb.2.2.2.1
        · simpa [flipPose] using hb.2.2.2.2.1
        · simpa [flipPose] using hb.2.2.2.2.2
      · rw [if_neg hcond] at heq
        subst heq
        exact ⟨hb.1, hb.2.1, hb.2.2.1, hb.2.2.2.1, hb.2.2.2.2.1, hb.2.2.2.2.2⟩

/-- Witness for claim C1 at a concrete uniform draw. -/
theorem claim_C1_witness : |(0 : ℚ)| ≤ uParams.max :=
  claim_C1.1 uParams g0 1 0 (gAt 1) (by norm_num [uParams]) g0_valid run_getRandom_u

/-- Claim C2: for useCount > 0, generatePoses4oneFrame synthesizes all of a
frame's poses from exactly the first rule, in stored configuration order,
whose predicate map matches the frame; the constructor stores rules
preserving input order, and later rules are not consulted once an earlier
one matches. -/
theorem claim_C2 (env : Env) (cfg : List (String × perturbParams))
    (rules : List Rule) (sensorNames : List String) (useCount index : Nat)
    (trace : Trace) (g : Gen) (fuel : Nat) (l : List Pose) (g2 : Gen)
    (hmk : mkPerturbRules env cfg = .ok rules)
    (hc : useCount ≠ 0)
    (hrun : generatePoses4oneFrame sensorNames rules useCount index trace g fuel =
      .ok (l, g2)) :
    rules = cfg.map (fun rule => (env.stringMapFromSplitString rule.1, rule.2)) ∧
    ∃ k firstRule,
      rules.get? k = some firstRule ∧
      trace.doLabelsMatch index firstRule.1 = true ∧
      (∀ k2, k2 < k → ∀ r2, rules.get? k2 = some r2 →
        trace.doLabelsMatch index r2.1 = false) ∧
      poseLoop sensorNames firstRule.2 index fuel 0 useCount g = .ok (l, g2) := by
  refine ⟨mkPerturbRules_ok env cfg rules hmk, ?_⟩
  obtain ⟨firstRule, hf, hp⟩ := gen4one_inv _ _ _ _ _ _ _ _ _ hc hrun
  obtain ⟨k, hk, hpr, hfirst⟩ := find?_first _ _ _ hf
  exact ⟨k, firstRule, hk, by simpa using hpr,
    fun k2 hk2 r2 hr2 => by simpa using hfirst k2 hk2 r2 hr2, hp⟩

/-- Witness for claim C2: the stored rule table of a concrete construction
is the parsed config in order. -/
theorem claim_C2_witness :
    ([ruleT] : List Rule) =
      cfgT.map (fun rule => (envT.stringMapFromSplitString rule.1, rule.2)) :=
  (claim_C2 envT cfgT [ruleT] ["center"] 1 0 testTrace g0 1 [pose0] (gAt 6)
    run_mk_T (by decide) run_gen4one_T1).1

/-- Claim C3: every entry of the returned sequence comes from a pose
synthesized by generateOnePose from the matched rule's params (on the
shared stream); with flip enabled, the pose at every odd index is that
synthesized pose's flipped counterpart — flip true, shift and rotation
negated, forward and the per-sensor maps unchanged, srcFrame stamped with
the frame index — while the pose at every even index is the synthesized
pose itself with flip false; with flip disabled every entry is the
synthesized pose with flip false. -/
theorem claim_C3 (sensorNames : List String) (perturbRules : List Rule)
    (useCount index : Nat) (trace : Trace) (g : Gen) (fuel : Nat)
    (l : List Pose) (g2 : Gen) (firstRule : Rule)
    (hfind : perturbRules.find? (fun rule => trace.doLabelsMatch index rule.1) =
      some firstRule)
    (hrun : generatePoses4oneFrame sensorNames perturbRules useCount index trace g fuel =
      .ok (l, g2)) :
    ∀ j (hj : j < l.length),
      ∃ (p : Pose) (g3 g4 : Gen),
        g3.unif = g.unif ∧
        generateOnePose sensorNames firstRule.2 g3 fuel = .ok (p, g4) ∧
        (firstRule.2.flip = true → j % 2 = 1 →
          l.get ⟨j, hj⟩ =
            ⟨-p.shift, -p.rotation, p.forward, p.sensor_yaw, p.sensor_pitch,
             p.sensor_roll, true, index⟩) ∧
        (firstRule.2.flip = true → j % 2 = 0 →
          l.get ⟨j, hj⟩ =
            ⟨p.shift, p.rotation, p.forward, p.sensor_yaw, p.sensor_pitch,
             p.sensor_roll, false, index⟩) ∧
        (firstRule.2.flip = false →
          l.get ⟨j, hj⟩ =
            ⟨p.shift, p.rotation, p.forward, p.sensor_yaw, p.sensor_pitch,
             p.sensor_roll, false, index⟩) := by
  intro j hj
  by_cases hc : useCount = 0
  · exfalso
    subst hc
    rw [gen4one_zero] at hrun
    simp only [Except.ok.injEq, Prod.mk.injEq] at hrun
    obtain ⟨hl, -⟩ := hrun
    rw [← hl] at hj
    simp at hj
  · obtain ⟨fr2, hf2, hp⟩ := gen4one_inv _ _ _ _ _ _ _ _ _ hc hrun
    rw [hfind, Option.some.injEq] at hf2
    subst hf2
    obtain ⟨p, g3, g4, hu, hgen, heq⟩ := (poseLoop_spec _ _ _ _ _ _ _ _ _ hp).2 j hj
    have hpflip : p.flip = false := (generateOnePose_flip _ _ _ _ _ _ hgen).1
    obtain ⟨psh, pro, pfo, pya, ppi, prl, pfl, psf⟩ := p
    simp only at hpflip
    subst hpflip
    refine ⟨⟨psh, pro, pfo, pya, ppi, prl, false, psf⟩, g3, g4, hu, hgen, ?_, ?_, ?_⟩
    · intro hflip hodd
      rw [if_pos ⟨hflip, by simpa using hodd⟩] at heq
      rw [heq]
      simp [flipPose]
    · intro hflip heven
      rw [if_neg (by simp [heven, Nat.zero_add])] at heq
      rw [heq]
    · intro hflip
      rw [if_neg (by simp [hflip])] at heq
      rw [heq]

/-- Witness for claim C3 at a concrete two-pose run with flip enabled: the
entry at index 1 is the flipped counterpart (negated shift and rotation,
other fields kept) of a pose generateOnePose produced from the matched
rule's params. -/
theorem claim_C3_witness :
    ∃ (p : Pose) (g3 g4 : Gen),
      g3.unif = g0.unif ∧
      generateOnePose ["center"] ruleT.2 g3 1 = .ok (p, g4) ∧
      List.get [pose0, flipPose pose0] ⟨1, by norm_num⟩ =
        ⟨-p.shift, -p.rotation, p.forward, p.sensor_yaw, p.sensor_pitch,
         p.sensor_roll, true, 0⟩ := by
  obtain ⟨p, g3, g4, hu, hgen, hodd, -, -⟩ :=
    claim_C3 ["center"] [ruleT] 2 0 testTrace g0 1 [pose0, flipPose pose0] (gAt 12)
      ruleT (by simp [ruleT, List.find?, testTrace]) run_gen4one_T2 1 (by norm_num)
  exact ⟨p, g3, g4, hu, hgen, hodd rfl rfl⟩

/-- Claim C4: whenever generateShuffledPoses returns normally it returns
either the empty sequence or a sequence whose first element has flip false;
it never returns a non-empty sequence headed by a flipped pose. -/
theorem claim_C4 (sensorNames : List String) (perturbRules : List Rule)
    (vecUseCounts : List Nat) (trace : Trace) (g : Gen) (fuel : Nat)
    (l : List Pose) (g2 : Gen)
    (h : generateShuffledPoses sensorNames perturbRules vecUseCounts trace g fuel =
      .ok (l, g2)) :
    l = [] ∨ ∃ hne : l ≠ [], (l.head hne).flip = false := by
  unfold generateShuffledPoses at h
  cases h1 : generatePoses4vecFrames sensorNames perturbRules vecUseCounts trace g fuel with
  | error e => simp [h1] at h
  | ok res =>
    obtain ⟨vv, g1⟩ := res
    simp only [h1] at h
    split at h
    · simp only [Except.ok.injEq, Prod.mk.injEq] at h
      exact Or.inl h.1.symm
    · cases h2 : reshuffleLoop fuel (shuffle vv.flatten g1).1 (shuffle vv.flatten g1).2 with
      | none => simp [h2] at h
      | some res2 =>
        obtain ⟨l2, g2x⟩ := res2
        simp only [h2, Except.ok.injEq, Prod.mk.injEq] at h
        obtain ⟨hl, -⟩ := h
        subst hl
        have hff := reshuffleLoop_first _ _ _ _ _ h2
        cases l2 with
        | nil => exact Or.inl rfl
        | cons x xs =>
          right
          exact ⟨by simp, by simpa [firstFlipped] using hff⟩

/-- Witness for claim C4 at a concrete shuffled run. -/
theorem claim_C4_witness :
    ([pose1, pose0] : List Pose) = [] ∨
      ∃ hne : ([pose1, pose0] : List Pose) ≠ [],
        (List.head [pose1, pose0] hne).flip = false :=
  claim_C4 ["center"] [ruleNF] [1, 1] testTrace g0 1 [pose1, pose0] (gAt 13)
    run_shuffled_NF

/-- Claim C5: on a normal return of generatePoses4vecFrames the outer result
length equals the length of the use-count vector (which equals the trace's
datapoint count) and every inner list has exactly the requested length. -/
theorem claim_C5 (sensorNames : List String) (perturbRules : List Rule)
    (vecUseCounts : List Nat) (trace : Trace) (g : Gen) (fuel : Nat)
    (vv : List (List Pose)) (g2 : Gen)
    (h : generatePoses4vecFrames sensorNames perturbRules vecUseCounts trace g fuel =
      .ok (vv, g2)) :
    vv.length = vecUseCounts.length ∧
    trace.numDatapoints = vecUseCounts.length ∧
    ∀ i (h1 : i < vv.length) (h2 : i < vecUseCounts.length),
      (vv.get ⟨i, h1⟩).length = vecUseCounts.get ⟨i, h2⟩ := by
  obtain ⟨hnum, hloop⟩ := gen4vec_inv _ _ _ _ _ _ _ _ h
  obtain ⟨hlen, hspec⟩ := genFramesLoop_lengths _ _ _ _ _ _ _ _ _ hloop
  exact ⟨hlen, hnum, hspec⟩

/-- Witness for claim C5 at a concrete run with use counts [1, 2]. -/
theorem claim_C5_witness :
    ([[pose0], [pose1, flipPose pose1]] : List (List Pose)).length =
      ([1, 2] : List Nat).length :=
  (claim_C5 ["center"] [ruleT] [1, 2] testTrace g0 1
    [[pose0], [pose1, flipPose pose1]] (gAt 18) run_gen4vec_T).1

/-- Claim C6: generatePoses4oneFrame with useCount 0 returns the empty
sequence without touching the rule table or the generator and without error,
for every frame index; and it fails with the no-matching-rule error exactly
when useCount > 0 and no rule in the table matches the frame's labels. -/
theorem claim_C6 (sensorNames : List String) (perturbRules : List Rule)
    (index : Nat) (trace : Trace) (g : Gen) (fuel : Nat) :
    generatePoses4oneFrame sensorNames perturbRules 0 index trace g fuel = .ok ([], g) ∧
    ∀ useCount,
      (generatePoses4oneFrame sensorNames perturbRules useCount index trace g fuel =
          .error (.noMatchingRule index) ↔
        useCount ≠ 0 ∧ ∀ r ∈ perturbRules, trace.doLabelsMatch index r.1 = false) := by
  refine ⟨gen4one_zero _ _ _ _ _ _, ?_⟩
  intro useCount
  constructor
  · intro h
    by_cases hc : useCount = 0
    · subst hc
      rw [gen4one_zero] at h
      simp at h
    · refine ⟨hc, ?_⟩
      cases hf : perturbRules.find? (fun rule => trace.doLabelsMatch index rule.1) with
      | none =>
        intro r hr
        have := List.find?_eq_none.mp hf r hr
        simpa using this
      | some fr =>
        exfalso
        unfold generatePoses4oneFrame at h
        rw [if_neg hc, hf] at h
        cases hp : poseLoop sensorNames fr.2 index fuel 0 useCount g with
        | error e =>
          simp only [hp, Except.error.injEq] at h
          rcases poseLoop_error _ _ _ _ _ _ _ _ hp with h2 | ⟨s, h2⟩ <;> simp [h2] at h
        | ok res =>
          obtain ⟨l1, g1⟩ := res
          simp only [hp] at h
          split at h
          · rename_i hl0
            have hlen := (poseLoop_spec _ _ _ _ _ _ _ _ _ hp).1
            omega
          · simp at h
  · rintro ⟨hc, hall⟩
    have hf : perturbRules.find? (fun rule => trace.doLabelsMatch index rule.1) = none :=
      List.find?_eq_none.mpr (fun r hr => by simp [hall r hr])
    unfold generatePoses4oneFrame
    rw [if_neg hc, hf]
    simp

/-- Witness for claim C6: with an empty rule table and useCount 1 the
no-matching-rule error is raised. -/
theorem claim_C6_witness :
    generatePoses4oneFrame ["center"] [] 1 0 testTrace g0 1 =
      .error (.noMatchingRule 0) :=
  ((claim_C6 ["center"] [] 0 testTrace g0 1).2 1).mpr ⟨by decide, by simp⟩

/-- Claim C7: generatePoses4vecFrames fails with the frame-count-mismatch
error exactly when the use-count vector length differs from the trace's
datapoint count; the check precedes any pose generation, so the error never
carries a partial result and never arises from the generation loop. -/
theorem claim_C7 (sensorNames : List String) (perturbRules : List Rule)
    (vecUseCounts : List Nat) (trace : Trace) (g : Gen) (fuel : Nat) :
    (trace.numDatapoints ≠ vecUseCounts.length →
      generatePoses4vecFrames sensorNames perturbRules vecUseCounts trace g fuel =
        .error (.frameCountMismatch trace.numDatapoints vecUseCounts.length)) ∧
    (∀ a b, generatePoses4vecFrames sensorNames perturbRules vecUseCounts trace g fuel =
        .error (.frameCountMismatch a b) →
      trace.numDatapoints ≠ vecUseCounts.length ∧ a = trace.numDatapoints ∧
      b = vecUseCounts.length) := by
  constructor
  · intro hne
    unfold generatePoses4vecFrames
    rw [if_pos hne]
  · intro a b h
    unfold generatePoses4vecFrames at h
    cases h1 : genFramesLoop sensorNames perturbRules trace fuel vecUseCounts 0 g with
    | error e =>
      simp only [h1] at h
      split at h
      · rename_i hne
        simp only [Except.error.injEq, Err.frameCountMismatch.injEq] at h
        exact ⟨hne, h.1.symm, h.2.symm⟩
      · exfalso
        simp only [Except.error.injEq] at h
        rcases genFramesLoop_error _ _ _ _ _ _ _ _ h1 with ⟨j, h2⟩ | h2 | ⟨s, h2⟩ <;>
          simp [h2] at h
    | ok res =>
      obtain ⟨vv, g1⟩ := res
      simp only [h1] at h
      split at h
      · rename_i hne
        simp only [Except.error.injEq, Err.frameCountMismatch.injEq] at h
        exact ⟨hne, h.1.symm, h.2.symm⟩
      · exfalso
        split at h <;> simp at h

/-- Witness for claim C7: a concrete length mismatch (trace has 2 frames,
one use count) raises the frame-count-mismatch error. -/
theorem claim_C7_witness :
    generatePoses4vecFrames ["center"] [ruleT] [1] testTrace g0 1 =
      .error (.frameCountMismatch 2 1) :=
  (claim_C7 ["center"] [ruleT] [1] testTrace g0 1).1 (by decide)

/-- Claim C8: two generator instances with identical stored rules, sensor
names and generator state, driven through the same sequence of public
calls, produce identical result sequences and identical final states: the
output is a function of the constructor arguments and the call order
alone. -/
theorem claim_C8 (s1 s2 : PoseGenState) (calls : List ApiCall)
    (hr : s1.m_perturbRules = s2.m_perturbRules)
    (hs : s1.m_sensorNames = s2.m_sensorNames)
    (hg : s1.m_generator = s2.m_generator) :
    runCalls s1 calls = runCalls s2 calls := by
  obtain ⟨r1, n1, g1⟩ := s1
  obtain ⟨r2, n2, g2⟩ := s2
  simp only at hr hs hg
  subst hr
  subst hs
  subst hg
  rfl

/-- Witness for claim C8: two separately written but equal instances
agree on a concrete call. -/
theorem claim_C8_witness :
    runCalls ⟨[ruleT], ["center"], g0⟩ [ApiCall.vecFrames [1, 2] testTrace 1] =
      runCalls ⟨[ruleT], ["center"], gAt 0⟩ [ApiCall.vecFrames [1, 2] testTrace 1] :=
  claim_C8 ⟨[ruleT], ["center"], g0⟩ ⟨[ruleT], ["center"], gAt 0⟩
    [ApiCall.vecFrames [1, 2] testTrace 1] rfl rfl rfl

def g9At (n : Nat) : Gen := ⟨fun m => (m : ℚ) / 10, fun _ => 0, fun _ => 0, n⟩

def poseDup : Pose :=
  ⟨-1, -4/5, -3/5, [("a", -2/5)], [("a", -1/5)], [("a", 0)], false, 0⟩

theorem run_dup : generateOnePose ["a", "a"] testParams g9 1 = .ok (poseDup, g9At 9) := by
  simp [generateOnePose, sensorLoop, mapInsert, getRandom, genUniformRV, testParams,
    uParams, g9, g9At, Gen.advance, poseDup]
  norm_num

/-- Counterexample to claim C9 as stated: with the duplicated sensor name
"a", the yaw entry stored for "a" is the value drawn for the FIRST
occurrence (-2/5), not the later draw (1/5): std::map::insert does not
overwrite, so the later occurrence's value does not replace the earlier
one. -/
theorem claim_C9_cex :
    (generateOnePose ["a", "a"] testParams g9 1).map (fun r => r.1.sensor_yaw) =
      .ok [("a", -2/5)] ∧
    (generateOnePose ["a", "a"] testParams g9 1).map (fun r => r.1.sensor_yaw) ≠
      .ok [("a", 1/5)] := by
  rw [run_dup]
  constructor
  · simp [Except.map, poseDup]
  · simp only [Except.map, poseDup, ne_eq, Except.ok.injEq, List.cons.injEq,
      Prod.mk.injEq]
    norm_num

/-- Claim C9 amended: with a duplicate sensor name, generateOnePose silently
keeps the value drawn at the name's first occurrence in each of the three
per-sensor maps; later occurrences draw fresh values but do not replace the
stored entry, and construction does not fail. -/
theorem claim_C9_amended (k : String) (names : List String) (params : perturbParams)
    (g : Gen) (fuel : Nat) (p : Pose) (g2 : Gen)
    (h : generateOnePose (k :: names) params g fuel = .ok (p, g2)) :
    ∃ g1 g2x g3 yv g4 pv g5 rv g6,
      getRandom params.shift g fuel = .ok (p.shift, g1) ∧
      getRandom params.rotation g1 fuel = .ok (p.rotation, g2x) ∧
      getRandom params.forward g2x fuel = .ok (p.forward, g3) ∧
      getRandom params.sensor_yaw g3 fuel = .ok (yv, g4) ∧
      getRandom params.sensor_pitch g4 fuel = .ok (pv, g5) ∧
      getRandom params.sensor_roll g5 fuel = .ok (rv, g6) ∧
      List.lookup k p.sensor_yaw = some yv ∧
      List.lookup k p.sensor_pitch = some pv ∧
      List.lookup k p.sensor_roll = some rv := by
  obtain ⟨g1, g2x, g3, e1, e2, e3, e4, -, -⟩ := generateOnePose_inv _ _ _ _ _ _ h
  simp only [sensorLoop] at e4
  cases h4 : getRandom params.sensor_yaw g3 fuel with
  | error e => simp [h4] at e4
  | ok res4 =>
    obtain ⟨yv, g4⟩ := res4
    simp only [h4] at e4
    cases h5 : getRandom params.sensor_pitch g4 fuel with
    | error e => simp [h5] at e4
    | ok res5 =>
      obtain ⟨pv, g5⟩ := res5
      simp only [h5] at e4
      cases h6 : getRandom params.sensor_roll g5 fuel with
      | error e => simp [h6] at e4
      | ok res6 =>
        obtain ⟨rv, g6⟩ := res6
        simp only [h6] at e4
        have hins : ∀ v : ℚ, mapInsert k v ([] : List (String × ℚ)) = [(k, v)] := by
          intro v
          simp [mapInsert]
        rw [hins yv, hins pv, hins rv] at e4
        have hlk : ∀ v : ℚ, List.lookup k [(k, v)] = some v := by
          intro v
          simp [List.lookup]
        obtain ⟨py, pp, pr⟩ := sensorLoop_preserves _ _ _ _ _ _ _ _ _ _ _ _ _ _ _
          (hlk yv) (hlk pv) (hlk rv) e4
        exact ⟨g1, g2x, g3, yv, g4, pv, g5, rv, g6, e1, e2, e3, h4, h5, h6, py, pp, pr⟩

/-- Witness for the amended claim C9 at the concrete duplicated-sensor
run. -/
theorem claim_C9_amended_witness :
    ∃ g1 g2x g3 yv g4 pv g5 rv g6,
      getRandom testParams.shift g9 1 = .ok (poseDup.shift, g1) ∧
      getRandom testParams.rotation g1 1 = .ok (poseDup.rotation, g2x) ∧
      getRandom testParams.forward g2x 1 = .ok (poseDup.forward, g3) ∧
      getRandom testParams.sensor_yaw g3 1 = .ok (yv, g4) ∧
      getRandom testParams.sensor_pitch g4 1 = .ok (pv, g5) ∧
      getRandom testParams.sensor_roll g5 1 = .ok (rv, g6) ∧
      List.lookup "a" poseDup.sensor_yaw = some yv ∧
      List.lookup "a" poseDup.sensor_pitch = some pv ∧
      List.lookup "a" poseDup.sensor_roll = some rv :=
  claim_C9_amended "a" ["a"] testParams g9 1 poseDup (g9At 9) run_dup

/-- Claim C10 (implicit): for a frame with useCount > 0 that returns
normally, the pose at index 0 is always unflipped; hence every non-empty
flattened sequence reaching the shuffle stage contains at least one
unflipped pose, which is what lets the reshuffle-until-unflipped-first loop
find an admissible arrangement. -/
theorem claim_C10 :
    (∀ (sensorNames : List String) (perturbRules : List Rule) (useCount index : Nat)
       (trace : Trace) (g : Gen) (fuel : Nat) (l : List Pose) (g2 : Gen),
      useCount ≠ 0 →
      generatePoses4oneFrame sensorNames perturbRules useCount index trace g fuel =
        .ok (l, g2) →
      ∃ hne : l ≠ [], (l.head hne).flip = false) ∧
    (∀ (sensorNames : List String) (perturbRules : List Rule) (vecUseCounts : List Nat)
       (trace : Trace) (g : Gen) (fuel : Nat) (vv : List (List Pose)) (g2 : Gen),
      generatePoses4vecFrames sensorNames perturbRules vecUseCounts trace g fuel =
        .ok (vv, g2) →
      vv.flatten ≠ [] →
      ∃ pose ∈ vv.flatten, pose.flip = false) := by
  constructor
  · intro sensorNames perturbRules useCount index trace g fuel l g2 hc h
    rcases gen4one_head _ _ _ _ _ _ _ _ _ h with hl | h2
    · exfalso
      have hlen := gen4one_length _ _ _ _ _ _ _ _ _ h
      rw [hl] at hlen
      simp at hlen
      omega
    · exact h2
  · intro sensorNames perturbRules vecUseCounts trace g fuel vv g2 h hne
    obtain ⟨-, hloop⟩ := gen4vec_inv _ _ _ _ _ _ _ _ h
    have hheads := genFramesLoop_heads _ _ _ _ _ _ _ _ _ hloop
    have hex : ∃ lv ∈ vv, lv ≠ [] := by
      by_contra hno
      push_neg at hno
      exact hne (List.flatten_eq_nil_iff.mpr hno)
    obtain ⟨lv, hmem, hlne⟩ := hex
    rcases hheads lv hmem with hl | ⟨hne2, hflip⟩
    · exact absurd hl hlne
    · exact ⟨lv.head hne2, List.mem_flatten.mpr ⟨lv, hmem, List.head_mem hne2⟩, hflip⟩

/-- Witness for claim C10 at a concrete two-pose frame. -/
theorem claim_C10_witness :
    ∃ hne : ([pose0, flipPose pose0] : List Pose) ≠ [],
      (List.head [pose0, flipPose pose0] hne).flip = false :=
  claim_C10.1 ["center"] [ruleT] 2 0 testTrace g0 1 [pose0, flipPose pose0] (gAt 12)
    (by decide) run_gen4one_T2
